import Mathlib

/-!
Shallow embedding of the `libsmtp` Go package (file `libsmtp.go`).

Bytes are modelled as `Nat` values (meaningful when `< 256`); byte buffers
as `List Nat`.  Go maps keyed by `string` are modelled as association lists
with last-write-wins update (`mapSet`) and first-match lookup (`mapGetD`),
iterated in list order (Go map iteration order is unspecified; the list
order is one admissible order and every claim below is order-independent).

External effects are passed in as explicit inputs:
  * `time.Now()` at construction is the `now : String` argument of `New`;
  * `ioutil.ReadFile` is the `fs : String → Except String (List Nat)`
    argument of `AddAttachment`;
  * `utils.RandomBase36()` is the `bnd : String` argument of `AddAttachment`;
  * the `net/smtp` client consumed by `Send` is an `SmtpServer` record of
    responses, and `Send` additionally returns the transcript of SMTP
    actions it performed.
-/

namespace Libsmtp

/-- One byte of the UTF-8 encoding of a character (Go `WriteString` writes
the UTF-8 bytes of its argument). -/
def utf8EncodeCharB (c : Char) : List Nat :=
  let n := c.toNat
  if n < 128 then [n]
  else if n < 2048 then [192 + n / 64, 128 + n % 64]
  else if n < 65536 then [224 + n / 4096, 128 + (n / 64) % 64, 128 + n % 64]
  else [240 + n / 262144, 128 + (n / 4096) % 64, 128 + (n / 64) % 64, 128 + n % 64]

/-- The UTF-8 bytes of a string, as written by `bytes.Buffer.WriteString`. -/
def utf8Bytes (s : String) : List Nat :=
  s.data.flatMap utf8EncodeCharB

/-- `base64.StdEncoding` alphabet: sextet value to ASCII code. -/
def b64chr (n : Nat) : Nat :=
  if n < 26 then 65 + n
  else if n < 52 then 97 + (n - 26)
  else if n < 62 then 48 + (n - 52)
  else if n = 62 then 43
  else 47

/-- Inverse of the `base64.StdEncoding` alphabet: ASCII code to sextet. -/
def b64dec (c : Nat) : Nat :=
  if 65 ≤ c ∧ c ≤ 90 then c - 65
  else if 97 ≤ c ∧ c ≤ 122 then c - 97 + 26
  else if 48 ≤ c ∧ c ≤ 57 then c - 48 + 52
  else if c = 43 then 62
  else 63

/-- `base64.StdEncoding.Encode`: standard base64 with `=` padding
(61 is the ASCII code of the padding character). -/
def b64encode : List Nat → List Nat
  | a :: b :: c :: rest =>
      b64chr (a / 4) :: b64chr (a % 4 * 16 + b / 16) ::
      b64chr (b % 16 * 4 + c / 64) :: b64chr (c % 64) :: b64encode rest
  | [a, b] => [b64chr (a / 4), b64chr (a % 4 * 16 + b / 16), b64chr (b % 16 * 4), 61]
  | [a] => [b64chr (a / 4), b64chr (a % 4 * 16), 61, 61]
  | [] => []

/-- Standard base64 decoding of well-formed input (4-byte groups, `=`
padding); used to state the attachment round-trip property. -/
def b64decode : List Nat → List Nat
  | c0 :: c1 :: c2 :: c3 :: rest =>
      if c2 = 61 then [b64dec c0 * 4 + b64dec c1 / 16]
      else if c3 = 61 then
        [b64dec c0 * 4 + b64dec c1 / 16, b64dec c1 % 16 * 16 + b64dec c2 / 4]
      else
        (b64dec c0 * 4 + b64dec c1 / 16) ::
        (b64dec c1 % 16 * 16 + b64dec c2 / 4) ::
        (b64dec c2 % 4 * 64 + b64dec c3) :: b64decode rest
  | _ => []

/-- `base64.StdEncoding.EncodedLen`. -/
def encodedLen (n : Nat) : Nat := (n + 2) / 3 * 4

/-- Go map lookup with default (zero value on a missing key). -/
def mapGetD (k : String) (d : α) : List (String × α) → α
  | [] => d
  | (k1, v) :: rest => if k1 = k then v else mapGetD k d rest

/-- Go map assignment `m[k] = v`: replaces an existing entry, else appends. -/
def mapSet (k : String) (v : α) : List (String × α) → List (String × α)
  | [] => [(k, v)]
  | (k1, v1) :: rest => if k1 = k then (k, v) :: rest else (k1, v1) :: mapSet k v rest

/-- `path/filepath.Base` (unix separators): strip trailing slashes, take the
final path element; `""` gives `"."`, all-slashes gives `"/"`. -/
def filepathBase (p : String) : String :=
  if p = "" then "."
  else
    let cs := p.data.reverse.dropWhile (fun c => c = '/')
    if cs = [] then "/"
    else String.mk (cs.takeWhile (fun c => c ≠ '/')).reverse

/-- The `MailMessage` struct of `libsmtp.go` (the Go `from` field is
`from_` here because `from` is reserved in Lean). -/
structure MailMessage where
  attachmentLengths : List (String × Nat)
  attachments : List (String × List Nat)
  attachmentBoundaries : List (String × String)
  body : List Nat
  buf : List Nat
  from_ : String
  port : Int
  server : String
  subject : String
  tls : Bool
  to_ : List String
  contentType : String
  buildCalled : Bool
  deriving Repr, DecidableEq

/-- `New`: validates server / sender / recipients, defaults the port to 25
when non-positive; `now` stands for the `time.Now()` timestamp that Go
interpolates into the default subject. -/
def New (server : String) (port : Int) (from_ : String) (to_ : List String)
    (usetls : Bool) (now : String) : Except String MailMessage :=
  if server = "" then .error "SMTP server required"
  else if from_ = "" then .error "SMTP sender required"
  else if to_ = [] then .error "Mail recipient(s) required"
  else
    .ok { attachmentBoundaries := []
          attachmentLengths := []
          attachments := []
          body := []
          buf := []
          contentType := "text/plain"
          from_ := from_
          port := if port ≤ 0 then 25 else port
          server := server
          subject := "libsmtp - " ++ now
          tls := usetls
          to_ := to_
          buildCalled := false }

/-- `AddAttachment`: reads the file (`fs` stands for `ioutil.ReadFile`),
base64-encodes it, and records encoded bytes, encoded length and a fresh
boundary (`bnd` stands for `utils.RandomBase36()`) under the path's base
name.  Returns the Go error value paired with the (possibly updated)
message. -/
def AddAttachment (fs : String → Except String (List Nat)) (bnd : String)
    (pathToFile : String) (m : MailMessage) : Option String × MailMessage :=
  if pathToFile ≠ "" then
    let attachmentName := filepathBase pathToFile
    match fs pathToFile with
    | .error e => (some e, m)
    | .ok b =>
        (none,
         { m with
             attachments := mapSet attachmentName (b64encode b) m.attachments
             attachmentLengths :=
               mapSet attachmentName (encodedLen b.length) m.attachmentLengths
             attachmentBoundaries := mapSet attachmentName bnd m.attachmentBoundaries })
  else (some "No attachment specified", m)

/-- `SetBody`: appends the UTF-8 bytes of `data` to the body buffer. -/
def SetBody (data : String) (m : MailMessage) : MailMessage :=
  { m with body := m.body ++ utf8Bytes data }

/-- `SetBodyBytes`: appends raw bytes to the body buffer. -/
def SetBodyBytes (data : List Nat) (m : MailMessage) : MailMessage :=
  { m with body := m.body ++ data }

/-- `SetContentType`: non-empty replaces, empty resets to `text/plain`. -/
def SetContentType (ct : String) (m : MailMessage) : MailMessage :=
  if 0 < ct.length then { m with contentType := ct }
  else { m with contentType := "text/plain" }

/-- The `Subject` setter: unconditional assignment. -/
def Subject (subject : String) (m : MailMessage) : MailMessage :=
  { m with subject := subject }

/-- First attachment loop of `build`: one `multipart/mixed` header and one
`--boundary` line per boundary map entry. -/
def attachHeaderBlock (boundaries : List (String × String)) : List Nat :=
  boundaries.flatMap fun kv =>
    utf8Bytes ("Content-Type: multipart/mixed; boundary=\"" ++ kv.2 ++ "\"\n")
    ++ utf8Bytes ("--" ++ kv.2 ++ "\n")

/-- One iteration of the second attachment loop of `build` for entry
`(name, boundary)`. -/
def attachBlockOne (m : MailMessage) (kv : String × String) : List Nat :=
  utf8Bytes ("\n\n--" ++ kv.2 ++ "\n")
  ++ utf8Bytes ("Content-Type: application/octet-stream; name=\"" ++ kv.1 ++ "\"\n")
  ++ utf8Bytes ("Content-Description: " ++ kv.1 ++ "\n")
  ++ utf8Bytes ("Content-Disposition: attachment; filename=\"" ++ kv.1
       ++ "\"; size=" ++ toString (mapGetD kv.1 0 m.attachmentLengths) ++ "\n")
  ++ utf8Bytes "Content-Transfer-Encoding: base64\n\n"
  ++ mapGetD kv.1 [] m.attachments
  ++ utf8Bytes ("\n--" ++ kv.2 ++ "--")

/-- Second attachment loop of `build`. -/
def attachBodyBlock (m : MailMessage) : List Nat :=
  m.attachmentBoundaries.flatMap (attachBlockOne m)

/-- `build`: fails on an empty body, otherwise appends the serialized MIME
message to `buf` and sets `buildCalled`.  Note `build` itself never
consults `buildCalled`. -/
def build (m : MailMessage) : Except String MailMessage :=
  if m.body = [] then .error "Message body is empty"
  else
    .ok { m with
            buf := m.buf
              ++ utf8Bytes ("To: " ++ String.intercalate "," m.to_ ++ "\n")
              ++ utf8Bytes ("Subject: " ++ m.subject ++ "\n")
              ++ (if m.attachments = [] then []
                  else attachHeaderBlock m.attachmentBoundaries)
              ++ utf8Bytes "Content-Transfer-Encoding: base64\n"
              ++ utf8Bytes "MIME-Version: 1.0;\n"
              ++ utf8Bytes ("Content-Type: " ++ m.contentType ++ "; charset=\"utf-8\";\n\n")
              ++ b64encode m.body
              ++ (if m.attachments = [] then [] else attachBodyBlock m)
            buildCalled := true }

/-- `Bytes`: returns the cached buffer when `buildCalled`, otherwise runs
`build`; result is (buffer bytes, error, resulting message). -/
def Bytes (m : MailMessage) : List Nat × Option String × MailMessage :=
  if m.buildCalled then (m.buf, none, m)
  else
    match build m with
    | .ok m1 => (m1.buf, none, m1)
    | .error e => (m.buf, some e, m)

/-- The dial address: the server verbatim when it already contains a colon,
else `server:port`. -/
def smtpUri (m : MailMessage) : String :=
  if m.server.contains ':' then m.server
  else m.server ++ ":" ++ toString m.port

/-- Responses of the external `net/smtp` collaborator, one per call site of
`Send`; `none` means the call succeeds. -/
structure SmtpServer where
  dialErr : Option String
  starttlsExt : Bool
  startTLSErr : Option String
  mailErr : Option String
  rcptErr : String → Option String
  dataErr : Option String
  writeErr : Option String
  closeErr : Option String

/-- SMTP protocol actions `Send` performs, in order. -/
inductive SmtpAction where
  | dial (uri : String)
  | startTLS
  | reset
  | quit
  | mail (addr : String)
  | rcpt (addr : String)
  | dataCmd
  | writeMsg (bytes : List Nat)
  | closeMsg
  deriving Repr, DecidableEq

/-- The recipient loop of `Send`: issues `RCPT` for each recipient, stopping
at the first error. -/
def rcptLoop (srv : SmtpServer) : List String → Option String × List SmtpAction
  | [] => (none, [])
  | r :: rs =>
    match srv.rcptErr r with
    | some e => (some e, [.rcpt r])
    | none =>
        let t := rcptLoop srv rs
        (t.1, .rcpt r :: t.2)

/-- The transcript of `Send` after the TLS phase: MAIL, RCPT loop, DATA,
write, close, QUIT, with `Reset`+`Quit` on every error path. -/
def transcript (srv : SmtpServer) (m1 : MailMessage) :
    Option String × List SmtpAction :=
  match srv.mailErr with
  | some e => (some e, [.mail m1.from_, .reset, .quit])
  | none =>
    let r := rcptLoop srv m1.to_
    match r.1 with
    | some e => (some e, .mail m1.from_ :: r.2 ++ [.reset, .quit])
    | none =>
      match srv.dataErr with
      | some e => (some e, .mail m1.from_ :: r.2 ++ [.dataCmd, .reset, .quit])
      | none =>
        match srv.writeErr with
        | some e =>
            (some e, .mail m1.from_ :: r.2
               ++ [.dataCmd, .writeMsg m1.buf, .reset, .quit])
        | none =>
          match srv.closeErr with
          | some e =>
              (some e, .mail m1.from_ :: r.2
                 ++ [.dataCmd, .writeMsg m1.buf, .closeMsg, .reset, .quit])
          | none =>
              (none, .mail m1.from_ :: r.2
                 ++ [.dataCmd, .writeMsg m1.buf, .closeMsg, .quit])

/-- `Send`: builds (unconditionally), dials, optionally upgrades to TLS
(only when the flag is set and the server advertises STARTTLS, aborting
with `Reset`+`Quit` when the handshake fails), then runs the transcript.
Returns (error, action trace, resulting message). -/
def Send (srv : SmtpServer) (m : MailMessage) :
    Option String × List SmtpAction × MailMessage :=
  match build m with
  | .error e => (some e, [], m)
  | .ok m1 =>
    let uri := smtpUri m1
    match srv.dialErr with
    | some e => (some e, [.dial uri], m1)
    | none =>
      let tlsStep : Option String × List SmtpAction :=
        if m1.tls then
          if srv.starttlsExt then
            match srv.startTLSErr with
            | some e => (some e, [.startTLS, .reset, .quit])
            | none => (none, [.startTLS])
          else (none, [])
        else (none, [])
      match tlsStep with
      | (some e, acts) => (some e, .dial uri :: acts, m1)
      | (none, acts) =>
          let rest := transcript srv m1
          (rest.1, .dial uri :: acts ++ rest.2, m1)


/-- A concrete freshly-constructed message (empty body, no attachments),
used to instantiate the theorems below at concrete inputs. -/
def mSample : MailMessage :=
  { attachmentLengths := []
    attachments := []
    attachmentBoundaries := []
    body := []
    buf := []
    from_ := "a@x.com"
    port := 25
    server := "localhost"
    subject := "libsmtp - T"
    tls := false
    to_ := ["b@x.com"]
    contentType := "text/plain"
    buildCalled := false }

/-- `mSample` with the TLS flag set. -/
def mSampleTLS : MailMessage := { mSample with tls := true }

/-- A server on which every SMTP call succeeds and STARTTLS is not
advertised. -/
def srvPlainOk : SmtpServer :=
  { dialErr := none
    starttlsExt := false
    startTLSErr := none
    mailErr := none
    rcptErr := fun _ => none
    dataErr := none
    writeErr := none
    closeErr := none }

/-- A server advertising STARTTLS whose TLS handshake fails. -/
def srvTLSFail : SmtpServer :=
  { srvPlainOk with
      starttlsExt := true
      startTLSErr := some "tls: handshake failure" }

/-- A concrete file system holding one readable file. -/
def fsSample (p : String) : Except String (List Nat) :=
  if p = "/tmp/data.bin" then .ok [0, 1, 2, 250] else .error "open: no such file"

/-! ### Helper lemmas -/

theorem b64dec_b64chr : ∀ n < 64, b64dec (b64chr n) = n := by decide

theorem b64chr_ne_61 : ∀ n < 64, b64chr n ≠ 61 := by decide

/-- Standard base64 decoding inverts encoding on byte lists. -/
theorem b64_roundtrip : ∀ B : List Nat, (∀ x ∈ B, x < 256) →
    b64decode (b64encode B) = B := by
  intro B
  induction B using b64encode.induct with
  | case1 a b c rest ih =>
      intro h
      have ha : a < 256 := h a (by simp)
      have hb : b < 256 := h b (by simp)
      have hc : c < 256 := h c (by simp)
      have h1 : b % 16 * 4 + c / 64 < 64 := by omega
      have h2 : c % 64 < 64 := by omega
      simp only [b64encode, b64decode, if_neg (b64chr_ne_61 (b % 16 * 4 + c / 64) h1),
        if_neg (b64chr_ne_61 (c % 64) h2)]
      rw [b64dec_b64chr (a / 4) (by omega), b64dec_b64chr (a % 4 * 16 + b / 16) (by omega),
        b64dec_b64chr (b % 16 * 4 + c / 64) h1, b64dec_b64chr (c % 64) h2,
        ih (fun x hx => h x (by simp [hx]))]
      simp only [List.cons.injEq, and_true]
      refine ⟨by omega, by omega, by omega⟩
  | case2 a b =>
      intro h
      have ha : a < 256 := h a (by simp)
      have hb : b < 256 := h b (by simp)
      have h1 : b % 16 * 4 < 64 := by omega
      simp only [b64encode, b64decode, if_neg (b64chr_ne_61 (b % 16 * 4) h1), if_true]
      rw [b64dec_b64chr (a / 4) (by omega), b64dec_b64chr (a % 4 * 16 + b / 16) (by omega),
        b64dec_b64chr (b % 16 * 4) h1]
      simp only [List.cons.injEq, and_true]
      refine ⟨by omega, by omega⟩
  | case3 a =>
      intro h
      have ha : a < 256 := h a (by simp)
      simp only [b64encode, b64decode, if_true]
      rw [b64dec_b64chr (a / 4) (by omega), b64dec_b64chr (a % 4 * 16) (by omega)]
      simp only [List.cons.injEq, and_true]
      omega
  | case4 => intro _; rfl

/-- The length of a base64 encoding is `EncodedLen` of the input length. -/
theorem b64encode_length : ∀ B : List Nat, (b64encode B).length = encodedLen B.length := by
  intro B
  induction B using b64encode.induct with
  | case1 a b c rest ih =>
      simp only [b64encode, List.length_cons, ih, encodedLen]
      omega
  | case2 a b => simp [b64encode, encodedLen]
  | case3 a => simp [b64encode, encodedLen]
  | case4 => simp [b64encode, encodedLen]

theorem mapGetD_mapSet (k : String) (v : α) (d : α) :
    ∀ l : List (String × α), mapGetD k d (mapSet k v l) = v := by
  intro l
  induction l with
  | nil => simp [mapSet, mapGetD]
  | cons hd tl ih =>
      obtain ⟨k1, v1⟩ := hd
      by_cases hk : k1 = k
      · simp [mapSet, mapGetD, hk]
      · simp [mapSet, mapGetD, hk, ih]

theorem mem_mapSet_self (k : String) (v : α) :
    ∀ l : List (String × α), (k, v) ∈ mapSet k v l := by
  intro l
  induction l with
  | nil => simp [mapSet]
  | cons hd tl ih =>
      obtain ⟨k1, v1⟩ := hd
      by_cases hk : k1 = k
      · simp [mapSet, hk]
      · simp only [mapSet, if_neg hk]
        exact List.mem_cons_of_mem _ ih

theorem mapSet_ne_nil (k : String) (v : α) (l : List (String × α)) :
    mapSet k v l ≠ [] := by
  cases l with
  | nil => simp [mapSet]
  | cons hd tl =>
      obtain ⟨k1, v1⟩ := hd
      by_cases hk : k1 = k <;> simp [mapSet, hk]

theorem utf8EncodeCharB_ne_nil (c : Char) : utf8EncodeCharB c ≠ [] := by
  unfold utf8EncodeCharB
  dsimp only
  split
  · simp
  · split
    · simp
    · split <;> simp

theorem utf8Bytes_ne_nil (s : String) (h : s ≠ "") : utf8Bytes s ≠ [] := by
  obtain ⟨l⟩ := s
  cases l with
  | nil => exact absurd rfl h
  | cons c cs =>
      simp only [utf8Bytes, List.flatMap_cons, ne_eq, List.append_eq_nil]
      intro hc
      exact utf8EncodeCharB_ne_nil c hc.1

theorem utf8Bytes_append (a b : String) :
    utf8Bytes (a ++ b) = utf8Bytes a ++ utf8Bytes b := by
  simp [utf8Bytes, String.data_append]

/-- An element's image is an infix of the flat map. -/
theorem flatMapInfixOfMem (f : α → List β) {x : α} :
    ∀ l : List α, x ∈ l → f x <:+: l.flatMap f := by
  intro l
  induction l with
  | nil => simp
  | cons hd tl ih =>
      intro hx
      rcases List.mem_cons.mp hx with h | h
      · subst h
        exact ⟨[], tl.flatMap f, by simp [List.flatMap_cons]⟩
      · obtain ⟨s, t, hst⟩ := ih h
        exact ⟨f hd ++ s, t, by simp [List.flatMap_cons, ← hst]⟩

theorem string_length_pos (s : String) (h : s ≠ "") : 0 < s.length := by
  obtain ⟨l⟩ := s
  cases l with
  | nil => exact absurd rfl h
  | cons c cs => simp [String.length]

/-- C2: `New` returns a field-identifying error when the server, the sender or
the recipient list is empty (producing no message), and otherwise succeeds with
the port defaulted to 25 exactly when the given port is non-positive. -/
theorem New_validation (server : String) (port : Int) (from_ : String)
    (to_ : List String) (usetls : Bool) (now : String) :
    (server = "" →
       New server port from_ to_ usetls now = .error "SMTP server required") ∧
    (server ≠ "" → from_ = "" →
       New server port from_ to_ usetls now = .error "SMTP sender required") ∧
    (server ≠ "" → from_ ≠ "" → to_ = [] →
       New server port from_ to_ usetls now = .error "Mail recipient(s) required") ∧
    (server ≠ "" → from_ ≠ "" → to_ ≠ [] →
       ∃ m, New server port from_ to_ usetls now = .ok m ∧
         m.port = (if port ≤ 0 then 25 else port) ∧
         m.server = server ∧ m.from_ = from_ ∧ m.to_ = to_ ∧ m.tls = usetls) := by
  refine ⟨fun h1 => ?_, fun h1 h2 => ?_, fun h1 h2 h3 => ?_, fun h1 h2 h3 => ?_⟩
  · simp [New, h1]
  · simp [New, h1, h2]
  · simp [New, h1, h2, h3]
  · simp only [New, if_neg h1, if_neg h2, if_neg h3]
    exact ⟨_, rfl, rfl, rfl, rfl, rfl, rfl⟩

/-- Witness for C2 at a concrete input (port 0 normalizes to 25). -/
theorem New_validation_witness :
    ∃ m, New "localhost" 0 "a@x.com" ["b@x.com"] false "T" = .ok m ∧
      m.port = (if (0 : Int) ≤ 0 then 25 else 0) ∧
      m.server = "localhost" ∧ m.from_ = "a@x.com" ∧
      m.to_ = ["b@x.com"] ∧ m.tls = false :=
  (New_validation "localhost" 0 "a@x.com" ["b@x.com"] false "T").2.2.2
    (by decide) (by decide) (by decide)

/-- C8 counterexample: on a concrete freshly constructed message, the `Subject`
setter called with the empty string does NOT leave the subject unchanged — it
overwrites the default subject with `""`, refuting the claim as stated. -/
theorem Subject_empty_cex :
    (New "smtp.example.com" 25 "a@x.com" ["b@x.com"] false "T").map
      (fun m => decide ((Subject "" m).subject = m.subject)) = .ok false := by
  rfl

/-- C8 (amended): the `Subject` setter replaces the subject unconditionally,
for every value including the empty string. -/
theorem Subject_replaces (m : MailMessage) (v : String) :
    (Subject v m).subject = v := rfl

/-- C9: `SetContentType` with the empty string resets the content type to
`text/plain` (whatever it was before, including a prior non-default value), and
with a non-empty string replaces it with that string. -/
theorem SetContentType_spec (m : MailMessage) (ct : String) :
    (SetContentType ct m).contentType = if ct = "" then "text/plain" else ct := by
  by_cases h : ct = ""
  · subst h; simp [SetContentType]
  · have hl : 0 < ct.length := string_length_pos ct h
    simp [SetContentType, hl, h]

/-- C3: serialization of a message with an empty body buffer fails with the
empty-body error — through `build` directly, through `Bytes` (when not yet
built) and through `Send` — and after one `SetBody` or `SetBodyBytes` call
with non-empty input, serialization succeeds. -/
theorem build_empty_body (m : MailMessage) (srv : SmtpServer)
    (data : String) (bs : List Nat) :
    (m.body = [] →
       build m = .error "Message body is empty" ∧
       (m.buildCalled = false → (Bytes m).2.1 = some "Message body is empty") ∧
       (Send srv m).1 = some "Message body is empty") ∧
    (data ≠ "" → ∃ m1, build (SetBody data m) = .ok m1) ∧
    (bs ≠ [] → ∃ m1, build (SetBodyBytes bs m) = .ok m1) := by
  refine ⟨fun h => ?_, fun h => ?_, fun h => ?_⟩
  · have hb : build m = .error "Message body is empty" := by simp [build, h]
    refine ⟨hb, fun hbc => ?_, ?_⟩
    · simp [Bytes, hbc, hb]
    · simp [Send, hb]
  · have hne : (SetBody data m).body ≠ [] := by
      simp only [SetBody, ne_eq, List.append_eq_nil]
      intro hc
      exact utf8Bytes_ne_nil data h hc.2
    exact ⟨_, by unfold build; rw [if_neg hne]⟩
  · have hne : (SetBodyBytes bs m).body ≠ [] := by
      simp only [SetBodyBytes, ne_eq, List.append_eq_nil]
      intro hc
      exact h hc.2
    exact ⟨_, by unfold build; rw [if_neg hne]⟩

/-- Witness for C3 at a concrete freshly-constructed message. -/
theorem build_empty_body_witness :
    (build mSample = .error "Message body is empty" ∧
       (mSample.buildCalled = false →
          (Bytes mSample).2.1 = some "Message body is empty") ∧
       (Send srvPlainOk mSample).1 = some "Message body is empty") ∧
    (∃ m1, build (SetBody "hi" mSample) = .ok m1) ∧
    (∃ m1, build (SetBodyBytes [104] mSample) = .ok m1) :=
  let T := build_empty_body mSample srvPlainOk "hi" [104]
  ⟨T.1 rfl, T.2.1 (by decide), T.2.2 (by decide)⟩

/-- C6: when `AddAttachment` fails — empty path, or the file read fails — it
returns the error and the message (hence all three attachment maps and every
previously added attachment) is returned unchanged. -/
theorem AddAttachment_error_preserves (fs : String → Except String (List Nat))
    (bnd path : String) (m : MailMessage) :
    (path = "" → AddAttachment fs bnd path m = (some "No attachment specified", m)) ∧
    (path ≠ "" → ∀ e, fs path = .error e →
       AddAttachment fs bnd path m = (some e, m)) := by
  refine ⟨fun h => ?_, fun h e he => ?_⟩
  · subst h; simp [AddAttachment]
  · simp [AddAttachment, h, he]

/-- Witness for C6: both failure modes at concrete inputs. -/
theorem AddAttachment_error_preserves_witness :
    (AddAttachment fsSample "bnd1" "" mSample = (some "No attachment specified", mSample)) ∧
    (AddAttachment fsSample "bnd1" "/missing" mSample = (some "open: no such file", mSample)) :=
  ⟨(AddAttachment_error_preserves fsSample "bnd1" "" mSample).1 rfl,
   (AddAttachment_error_preserves fsSample "bnd1" "/missing" mSample).2
     (by decide) "open: no such file" (by rfl)⟩

theorem prefix_append_right (t : List α) {l l2 : List α} (h : l <+: l2) :
    l <+: l2 ++ t := h.trans (List.prefix_append l2 t)

theorem build_ok (m : MailMessage) (hbody : m.body ≠ []) :
    ∃ m3, build m = .ok m3 ∧ m3.buildCalled = true ∧ m3.body = m.body ∧
      m3.tls = m.tls ∧ m3.to_ = m.to_ ∧ m3.from_ = m.from_ ∧
      smtpUri m3 = smtpUri m ∧ m.buf <+: m3.buf ∧
      m.buf.length + 34 ≤ m3.buf.length := by
  unfold build
  rw [if_neg hbody]
  refine ⟨_, rfl, rfl, rfl, rfl, rfl, rfl, rfl, ?_, ?_⟩
  · exact prefix_append_right _ (prefix_append_right _ (prefix_append_right _
      (prefix_append_right _ (prefix_append_right _ (prefix_append_right _
      (prefix_append_right _ (prefix_append_right _ List.prefix_rfl)))))))
  · have h35 : (utf8Bytes "Content-Transfer-Encoding: base64\n").length = 34 := by decide
    simp only [List.length_append]
    omega

/-- C1 (code bug): `build` never consults `buildCalled`, so on a message that
has already been built (`buildCalled = true`, as `Send` encounters after a
prior `Bytes` or `Send`), the `build` that `Send` performs unconditionally
appends the whole serialized message to the buffer again: the resulting buffer
is strictly longer and not byte-identical, contradicting the claimed
idempotence of serialization via `Send`. -/
theorem build_after_built_appends (m : MailMessage)
    (hbody : m.body ≠ []) (_hbuilt : m.buildCalled = true) :
    ∃ m3, build m = .ok m3 ∧ m.buf.length < m3.buf.length ∧ m3.buf ≠ m.buf := by
  obtain ⟨m3, hb, -, -, -, -, -, -, -, hlen⟩ := build_ok m hbody
  have hlt : m.buf.length < m3.buf.length := by omega
  refine ⟨m3, hb, hlt, fun hEq => ?_⟩
  rw [hEq] at hlt
  exact Nat.lt_irrefl _ hlt

/-- Witness for C1 at the failing input: a concrete message with body `"hi"`,
first serialized via `Bytes`, then rebuilt as `Send` would. -/
theorem build_after_built_appends_witness :
    ∃ m3, build (Bytes (SetBody "hi" mSample)).2.2 = .ok m3 ∧
      (Bytes (SetBody "hi" mSample)).2.2.buf.length < m3.buf.length ∧
      m3.buf ≠ (Bytes (SetBody "hi" mSample)).2.2.buf :=
  build_after_built_appends (Bytes (SetBody "hi" mSample)).2.2 (by decide) (by decide)

theorem rcptLoop_all_ok (srv : SmtpServer) :
    ∀ l : List String, (∀ r ∈ l, srv.rcptErr r = none) →
      rcptLoop srv l = (none, l.map SmtpAction.rcpt) := by
  intro l
  induction l with
  | nil => intro _; rfl
  | cons r rs ih =>
      intro h
      simp only [rcptLoop, h r (by simp), ih (fun x hx => h x (by simp [hx])),
        List.map_cons]

theorem transcript_all_ok (srv : SmtpServer) (m1 : MailMessage)
    (hmail : srv.mailErr = none) (hrcpt : ∀ r ∈ m1.to_, srv.rcptErr r = none)
    (hdata : srv.dataErr = none) (hwrite : srv.writeErr = none)
    (hclose : srv.closeErr = none) :
    transcript srv m1 = (none, .mail m1.from_ :: m1.to_.map SmtpAction.rcpt
      ++ [.dataCmd, .writeMsg m1.buf, .closeMsg, .quit]) := by
  simp only [transcript, hmail, rcptLoop_all_ok srv m1.to_ hrcpt, hdata, hwrite, hclose]

/-- C7: with the TLS flag set, when the server advertises STARTTLS and the
handshake fails, `Send` performs exactly Reset and Quit after the failed
StartTLS and returns the handshake error — the transcript contains no MAIL,
RCPT or DATA command, so it never continues over the unencrypted channel. -/
theorem Send_tls_handshake_fail (srv : SmtpServer) (m : MailMessage) (e : String)
    (htls : m.tls = true) (hext : srv.starttlsExt = true)
    (hfail : srv.startTLSErr = some e) (hdial : srv.dialErr = none)
    (hbody : m.body ≠ []) :
    ∃ m1, Send srv m =
      (some e, [.dial (smtpUri m), .startTLS, .reset, .quit], m1) := by
  obtain ⟨m1, hb, -, -, htls1, -, -, huri, -, -⟩ := build_ok m hbody
  refine ⟨m1, ?_⟩
  simp only [Send, hb, hdial, htls1, htls, hext, hfail, huri, if_true]

/-- Witness for C7 at a concrete message and failing server. -/
theorem Send_tls_handshake_fail_witness :
    ∃ m1, Send srvTLSFail (SetBody "hi" mSampleTLS) =
      (some "tls: handshake failure",
       [.dial (smtpUri (SetBody "hi" mSampleTLS)), .startTLS, .reset, .quit], m1) :=
  Send_tls_handshake_fail srvTLSFail (SetBody "hi" mSampleTLS) "tls: handshake failure"
    rfl rfl rfl rfl (by decide)

/-- C10: with the TLS flag set but the server not advertising STARTTLS,
`Send` attempts no TLS upgrade (no StartTLS action in the transcript) and
proceeds to transmit the message in plaintext (the DATA command is issued)
reporting no error. -/
theorem Send_no_starttls_plaintext (srv : SmtpServer) (m : MailMessage)
    (htls : m.tls = true) (hext : srv.starttlsExt = false)
    (hdial : srv.dialErr = none) (hmail : srv.mailErr = none)
    (hrcpt : ∀ r ∈ m.to_, srv.rcptErr r = none) (hdata : srv.dataErr = none)
    (hwrite : srv.writeErr = none) (hclose : srv.closeErr = none)
    (hbody : m.body ≠ []) :
    (Send srv m).1 = none ∧ SmtpAction.startTLS ∉ (Send srv m).2.1 ∧
      SmtpAction.dataCmd ∈ (Send srv m).2.1 := by
  obtain ⟨m1, hb, -, -, htls1, hto1, hfrom1, huri, -, -⟩ := build_ok m hbody
  have hrcpt1 : ∀ r ∈ m1.to_, srv.rcptErr r = none := fun r hr =>
    hrcpt r (hto1 ▸ hr)
  have hsend : Send srv m = (none, .dial (smtpUri m) ::
      ([] ++ (.mail m1.from_ :: m1.to_.map SmtpAction.rcpt
        ++ [.dataCmd, .writeMsg m1.buf, .closeMsg, .quit])), m1) := by
    simp only [Send, hb, hdial, htls1, htls, hext, if_true, if_false,
      transcript_all_ok srv m1 hmail hrcpt1 hdata hwrite hclose, huri]
    simp
  rw [hsend]
  refine ⟨rfl, ?_, ?_⟩
  · simp [List.mem_cons, List.mem_append, List.mem_map]
  · simp

/-- Witness for C10 at a concrete message and plaintext server. -/
theorem Send_no_starttls_plaintext_witness :
    (Send srvPlainOk (SetBody "hi" mSampleTLS)).1 = none ∧
      SmtpAction.startTLS ∉ (Send srvPlainOk (SetBody "hi" mSampleTLS)).2.1 ∧
      SmtpAction.dataCmd ∈ (Send srvPlainOk (SetBody "hi" mSampleTLS)).2.1 :=
  Send_no_starttls_plaintext srvPlainOk (SetBody "hi" mSampleTLS)
    rfl rfl rfl rfl (fun _ _ => rfl) rfl rfl rfl (by decide)

theorem infix_appendPre (pre : List α) {l l2 : List α} (h : l <:+: l2) :
    l <:+: pre ++ l2 := h.trans (List.suffix_append pre l2).isInfix

theorem infix_appendPost (post : List α) {l l2 : List α} (h : l <:+: l2) :
    l <:+: l2 ++ post := h.trans (List.prefix_append l2 post).isInfix

theorem build_attach_suffix (m : MailMessage) (hbody : m.body ≠ [])
    (hatt : m.attachments ≠ []) :
    ∃ m2, build m = .ok m2 ∧ attachBodyBlock m <:+ m2.buf := by
  unfold build
  rw [if_neg hbody]
  refine ⟨_, rfl, ?_⟩
  simp only [if_neg hatt]
  exact List.suffix_append _ _

theorem build_block_infix (m : MailMessage) (kv : String × String)
    (hkv : kv ∈ m.attachmentBoundaries) (hatt : m.attachments ≠ [])
    (hbody : m.body ≠ []) :
    ∃ m2, build m = .ok m2 ∧ attachBlockOne m kv <:+: m2.buf := by
  obtain ⟨m2, hb, hsuf⟩ := build_attach_suffix m hbody hatt
  exact ⟨m2, hb, (flatMapInfixOfMem (attachBlockOne m) m.attachmentBoundaries hkv).trans
    hsuf.isInfix⟩

/-- C4: attachment round-trip — after a successful `AddAttachment` of file
bytes `B` and a successful build, the stored attachment block is `b64encode B`,
it appears verbatim in the serialized output, and base64-decoding it yields
`B` exactly. -/
theorem AddAttachment_b64_roundtrip (m : MailMessage)
    (fs : String → Except String (List Nat)) (bnd path : String) (B : List Nat)
    (hpath : path ≠ "") (hfs : fs path = .ok B) (hB : ∀ x ∈ B, x < 256)
    (hbody : m.body ≠ []) :
    ∃ m1, AddAttachment fs bnd path m = (none, m1) ∧
      mapGetD (filepathBase path) [] m1.attachments = b64encode B ∧
      b64decode (b64encode B) = B ∧
      ∃ m2, build m1 = .ok m2 ∧ b64encode B <:+: m2.buf := by
  simp only [AddAttachment, if_pos hpath, hfs]
  refine ⟨_, rfl, mapGetD_mapSet _ _ _ _, b64_roundtrip B hB, ?_⟩
  obtain ⟨m2, hb2, hinf⟩ := build_block_infix
    { m with
        attachments := mapSet (filepathBase path) (b64encode B) m.attachments
        attachmentLengths :=
          mapSet (filepathBase path) (encodedLen B.length) m.attachmentLengths
        attachmentBoundaries := mapSet (filepathBase path) bnd m.attachmentBoundaries }
    (filepathBase path, bnd)
    (mem_mapSet_self _ _ _) (mapSet_ne_nil _ _ _) hbody
  refine ⟨m2, hb2, List.IsInfix.trans ?_ hinf⟩
  unfold attachBlockOne
  simp only [mapGetD_mapSet]
  exact infix_appendPost _ ((List.suffix_append _ _).isInfix)

/-- Witness for C4 at a concrete 4-byte file. -/
theorem AddAttachment_b64_roundtrip_witness :
    ∃ m1, AddAttachment fsSample "bndtok" "/tmp/data.bin" (SetBody "hi" mSample) =
        (none, m1) ∧
      mapGetD (filepathBase "/tmp/data.bin") [] m1.attachments =
        b64encode [0, 1, 2, 250] ∧
      b64decode (b64encode [0, 1, 2, 250]) = [0, 1, 2, 250] ∧
      ∃ m2, build m1 = .ok m2 ∧ b64encode [0, 1, 2, 250] <:+: m2.buf :=
  AddAttachment_b64_roundtrip (SetBody "hi" mSample) fsSample "bndtok"
    "/tmp/data.bin" [0, 1, 2, 250] (by decide) (by rfl) (by decide) (by decide)

/-- C5: for an attachment with raw content of length `n`, the recorded length
(and hence the `size=` value of the Content-Disposition header line written
during serialization, which appears verbatim in the built output) equals
`EncodedLen n = (n+2)/3*4`, the base64-encoded length — and differs from the
raw length `n` whenever the content is non-empty. -/
theorem AddAttachment_size_header (m : MailMessage)
    (fs : String → Except String (List Nat)) (bnd path : String) (B : List Nat)
    (hpath : path ≠ "") (hfs : fs path = .ok B) (hbody : m.body ≠ []) :
    ∃ m1, AddAttachment fs bnd path m = (none, m1) ∧
      mapGetD (filepathBase path) 0 m1.attachmentLengths = encodedLen B.length ∧
      encodedLen B.length = (b64encode B).length ∧
      (B ≠ [] → encodedLen B.length ≠ B.length) ∧
      ∃ m2, build m1 = .ok m2 ∧
        utf8Bytes ("Content-Disposition: attachment; filename=\"" ++ filepathBase path
          ++ "\"; size=" ++ toString (encodedLen B.length) ++ "\n") <:+: m2.buf := by
  simp only [AddAttachment, if_pos hpath, hfs]
  refine ⟨_, rfl, mapGetD_mapSet _ _ _ _, (b64encode_length B).symm, fun hne => ?_, ?_⟩
  · have hpos : 0 < B.length := List.length_pos.mpr hne
    unfold encodedLen
    omega
  · obtain ⟨m2, hb2, hinf⟩ := build_block_infix
      { m with
          attachments := mapSet (filepathBase path) (b64encode B) m.attachments
          attachmentLengths :=
            mapSet (filepathBase path) (encodedLen B.length) m.attachmentLengths
          attachmentBoundaries := mapSet (filepathBase path) bnd m.attachmentBoundaries }
      (filepathBase path, bnd)
      (mem_mapSet_self _ _ _) (mapSet_ne_nil _ _ _) hbody
    refine ⟨m2, hb2, List.IsInfix.trans ?_ hinf⟩
    unfold attachBlockOne
    simp only [mapGetD_mapSet]
    exact infix_appendPost _ (infix_appendPost _ (infix_appendPost _
      ((List.suffix_append _ _).isInfix)))

/-- Witness for C5 at a concrete 4-byte file (size 8, not 4). -/
theorem AddAttachment_size_header_witness :
    ∃ m1, AddAttachment fsSample "bndtok" "/tmp/data.bin" (SetBody "hi" mSample) =
        (none, m1) ∧
      mapGetD (filepathBase "/tmp/data.bin") 0 m1.attachmentLengths =
        encodedLen (List.length [0, 1, 2, 250]) ∧
      encodedLen (List.length [0, 1, 2, 250]) = (b64encode [0, 1, 2, 250]).length ∧
      ([0, 1, 2, 250] ≠ ([] : List Nat) →
        encodedLen (List.length [0, 1, 2, 250]) ≠ List.length [0, 1, 2, 250]) ∧
      ∃ m2, build m1 = .ok m2 ∧
        utf8Bytes ("Content-Disposition: attachment; filename=\""
          ++ filepathBase "/tmp/data.bin" ++ "\"; size="
          ++ toString (encodedLen (List.length [0, 1, 2, 250])) ++ "\n") <:+: m2.buf :=
  AddAttachment_size_header (SetBody "hi" mSample) fsSample "bndtok"
    "/tmp/data.bin" [0, 1, 2, 250] (by decide) (by rfl) (by decide)

end Libsmtp
